import Mathlib

/-!
Verification of the publish-automation scripts of the rstest-bdd repository.

The Python sources under `scripts/` are shallowly embedded here:

* `publish_patch.py`      — dependency-entry rewriting on parsed manifests;
* `publish_workspace.py`  — workspace-level helpers (member pruning, patch
  stripping, version lookup, the lenient `apply_workspace_replacements`);
* `publish_workspace_dependencies.py` — the strict draft of
  `apply_workspace_replacements`;
* `run_publish_check.py`  — the publish-check orchestrator.

TOML documents are modelled as ordered association lists (mirroring tomlkit's
insertion-ordered tables), file writes as document updates, and external
processes (`cargo`, `git archive`) as oracle parameters supplying the outcome
of each invocation.  Module-level configuration globals (`CRATE_ORDER`) become
explicit parameters instantiated with the constants defined below.
-/

/-- Character-level test that `needle` is a leading segment of `haystack`. -/
def charsHasStart : List Char → List Char → Bool
  | [], _ => true
  | _ :: _, [] => false
  | a :: as, b :: bs => a = b && charsHasStart as bs

/-- Character-level contiguous-substring test. -/
def charsHasSub (needle : List Char) : List Char → Bool
  | [] => charsHasStart needle []
  | b :: bs => charsHasStart needle (b :: bs) || charsHasSub needle bs

/-- String-level contiguous-substring test (Python's `in` on `str`). -/
def containsSub (needle haystack : String) : Bool :=
  charsHasSub needle.data haystack.data

/-- Model of Python `str.casefold`: per-character simple lowercasing.  Every
marker phrase used by the scripts is plain lowercase ASCII, for which this
agrees with full Unicode case folding. -/
def pyCasefold (s : String) : String :=
  ⟨s.data.map Char.toLower⟩

/-- Split a character list at `/` separators. -/
def splitSlash : List Char → List (List Char)
  | [] => [[]]
  | c :: rest =>
    if c = '/' then [] :: splitSlash rest
    else
      match splitSlash rest with
      | [] => [[c]]
      | seg :: segs => (c :: seg) :: segs

/-- Model of `pathlib.Path(entry).name` on POSIX paths: the final path
component, with empty segments and `.` segments dropped. -/
def posixName (s : String) : String :=
  ⟨(((splitSlash s.data).filter
      (fun seg => seg ≠ [] && seg ≠ ['.'])).getLast?).getD []⟩

/-- Model of `shlex.join` for command vectors containing no shell
metacharacters (all commands in the scripts are plain words). -/
def joinWords (ws : List String) : String :=
  String.intercalate " " ws

/-- Model of a parsed TOML value (tomlkit): tables and inline tables are both
`table`, with insertion-ordered key/value items. -/
inductive Toml where
  | str (s : String)
  | bool (b : Bool)
  | arr (items : List Toml)
  | table (items : List (String × Toml))

/-- Items of a TOML table: an insertion-ordered association list. -/
abbrev TomlItems := List (String × Toml)

/-- Lookup of a key in a table's item list (`document.get(key)` /
`document[key]` when present). -/
def getKey : TomlItems → String → Option Toml
  | [], _ => none
  | (k, v) :: rest, key => if k = key then some v else getKey rest key

/-- Assignment `items[key] = value`: replace the first binding in place, or
append when the key is absent (tomlkit dict semantics). -/
def setKey : TomlItems → String → Toml → TomlItems
  | [], key, value => [(key, value)]
  | (k, v) :: rest, key, value =>
    if k = key then (k, value) :: rest else (k, v) :: setKey rest key value

/-- Deletion `del items[key]`: remove the first binding of the key. -/
def delKey : TomlItems → String → TomlItems
  | [], _ => []
  | (k, v) :: rest, key => if k = key then rest else (k, v) :: delKey rest key

/-- Lookup of a key inside a TOML value: defined on tables only (indexing a
non-table raises in Python and never happens on the manifests in scope). -/
def tomlGet : Toml → String → Option Toml
  | .table items, key => getKey items key
  | _, _ => none

/-- Errors surfaced by the scripts: `SystemExit` (fatal diagnostics),
`ValueError` (programming-error precondition violations), and a missing
manifest file (`FileNotFoundError` from `Path.read_text`). -/
inductive Err where
  | systemExit (msg : String)
  | valueError (msg : String)
  | fileNotFound (path : String)
deriving DecidableEq, Repr

/-! ## publish_patch.py -/

/-- `DependencyPatch`: how one dependency entry is rewritten. -/
structure DependencyPatch where
  section_ : String
  name : String
  path : String

/-- `DependencyConfig`: version and path policy for a replacement run.  The
version travels as the TOML value read from the workspace manifest. -/
structure DependencyConfig where
  version : Toml
  includeLocalPath : Bool

/-- `REPLACEMENTS`: the fixed substitution table of `publish_patch.py`. -/
def REPLACEMENTS : List (String × List DependencyPatch) :=
  [ ("rstest-bdd-macros",
      [ ⟨"dependencies", "rstest-bdd-patterns", "../rstest-bdd-patterns"⟩,
        ⟨"dev-dependencies", "rstest-bdd", "../rstest-bdd"⟩ ]),
    ("rstest-bdd",
      [ ⟨"dependencies", "rstest-bdd-patterns", "../rstest-bdd-patterns"⟩,
        ⟨"dev-dependencies", "rstest-bdd-macros", "../rstest-bdd-macros"⟩ ]),
    ("cargo-bdd",
      [ ⟨"dependencies", "rstest-bdd", "../rstest-bdd"⟩ ]) ]

/-- Lookup in an association list of replacement sets (`REPLACEMENTS.get`). -/
def lookupReplacements : List (String × List DependencyPatch) → String →
    Option (List DependencyPatch)
  | [], _ => none
  | (k, v) :: rest, key => if k = key then some v else lookupReplacements rest key

/-- `extract_existing_items`: metadata retained from an existing dependency
entry — every item whose key is not `workspace`, `path` or `version`; nothing
is retained from a non-table entry. -/
def extract_existing_items : Toml → TomlItems
  | .table items =>
      items.filter fun p => p.1 ≠ "workspace" && p.1 ≠ "path" && p.1 ≠ "version"
  | _ => []

/-- `build_inline_dependency`: fresh inline table holding `path` (only when
local paths are requested), then `version`, then the retained metadata. -/
def build_inline_dependency (extraItems : TomlItems) (path : String)
    (version : Toml) (includeLocalPath : Bool) : Toml :=
  let d : TomlItems := []
  let d := if includeLocalPath then setKey d "path" (.str path) else d
  let d := setKey d "version" version
  let d := extraItems.foldl (fun acc p => setKey acc p.1 p.2) d
  .table d

/-- `update_dependency`: replace one dependency entry of `doc` with the rebuilt
inline entry, failing with a `SystemExit` naming the manifest when the section
or the dependency entry is absent. -/
def update_dependency (manifest : String) (doc : TomlItems)
    (patch : DependencyPatch) (config : DependencyConfig) :
    Except Err TomlItems :=
  match getKey doc patch.section_ with
  | none =>
      .error (.systemExit
        ("expected section [" ++ patch.section_ ++ "] in " ++ manifest))
  | some sec =>
    match tomlGet sec patch.name with
    | none =>
        .error (.systemExit
          ("expected dependency '" ++ patch.name ++ "' in " ++ manifest))
    | some existing =>
      match sec with
      | .table secItems =>
          .ok (setKey doc patch.section_
            (.table (setKey secItems patch.name
              (build_inline_dependency (extract_existing_items existing)
                patch.path config.version config.includeLocalPath))))
      | _ =>
          .error (.systemExit
            ("expected dependency '" ++ patch.name ++ "' in " ++ manifest))

/-- Fold of `update_dependency` over a crate's replacement set (the loop body
of `apply_replacements`). -/
def applyPatches (manifest : String) (config : DependencyConfig) :
    List DependencyPatch → TomlItems → Except Err TomlItems
  | [], doc => .ok doc
  | patch :: rest, doc =>
    match update_dependency manifest doc patch config with
    | .error e => .error e
    | .ok doc' => applyPatches manifest config rest doc'

/-- `apply_replacements` (publish_patch.py): rewrite every configured
dependency of `crate` in the parsed manifest, failing with `SystemExit` when
the crate has no configured replacement set. -/
def apply_replacements (crate : String) (manifest : String) (doc : TomlItems)
    (version : Toml) (includeLocalPath : Bool) : Except Err TomlItems :=
  match lookupReplacements REPLACEMENTS crate with
  | none => .error (.systemExit ("unknown crate '" ++ crate ++ "'"))
  | some patches =>
      applyPatches manifest ⟨version, includeLocalPath⟩ patches doc

/-! ## publish_workspace.py -/

/-- `PUBLISHABLE_CRATES`: the fixed, ordered catalogue of publishable crates. -/
def PUBLISHABLE_CRATES : List String :=
  ["rstest-bdd-patterns", "rstest-bdd-macros", "rstest-bdd", "cargo-bdd"]

/-- `strip_patch_section`: remove `[patch.crates-io]` from the root manifest
document, dropping a now-empty `[patch]` table; a no-op when absent. -/
def strip_patch_section (doc : TomlItems) : TomlItems :=
  match getKey doc "patch" with
  | none => doc
  | some patchTable =>
    match tomlGet patchTable "crates-io" with
    | none => doc
    | some _ =>
      match patchTable with
      | .table patchItems =>
        let patchItems := delKey patchItems "crates-io"
        if patchItems.isEmpty then delKey doc "patch"
        else setKey doc "patch" (.table patchItems)
      | _ => doc

/-- `_filter_workspace_members`: drop every member entry that is not a string
naming a publishable crate in its final path component; the Boolean records
whether anything was deleted. -/
def filter_workspace_members : List Toml → List Toml × Bool
  | [] => ([], false)
  | entry :: rest =>
    let (rest', changed) := filter_workspace_members rest
    match entry with
    | .str s =>
        if posixName s ∈ PUBLISHABLE_CRATES then (.str s :: rest', changed)
        else (rest', true)
    | _ => (rest', true)

/-- `_get_valid_workspace_members`: the members array of `[workspace]`, when
the document has a workspace table holding an array-valued `members` key
(tomlkit's `Array` and plain `list` cases both yield the element list). -/
def get_valid_workspace_members (doc : TomlItems) : Option (List Toml) :=
  match getKey doc "workspace" with
  | none => none
  | some workspace =>
    match tomlGet workspace "members" with
    | some (.arr members) => some members
    | _ => none

/-- `prune_workspace_members` on the parsed document: `some doc'` when the
manifest file is rewritten with content `doc'`, `none` when the file is left
untouched (`_write_manifest_if_changed` writes only when `changed` is true). -/
def prune_workspace_members (doc : TomlItems) : Option TomlItems :=
  match get_valid_workspace_members doc with
  | none => none
  | some members =>
    let (members', changed) := filter_workspace_members members
    if changed then
      match getKey doc "workspace" with
      | none => none
      | some workspace =>
        match workspace with
        | .table wsItems =>
            some (setKey doc "workspace"
              (.table (setKey wsItems "members" (.arr members'))))
        | _ => none
    else none

/-- Diagnostic of `workspace_version` (the raw-text excerpt that the script
appends when a `[workspace]` section is present is a formatting aid operating
on the unparsed file and is not modelled). -/
def versionErrorMessage (manifest : String) : String :=
  "expected [workspace.package].version in " ++ manifest ++
    "; [workspace.package] must define a version for publish automation to run. " ++
    "Check the manifest defines the key."

/-- `workspace_version`: the value at `workspace.package.version`, failing
with a `SystemExit` naming the manifest when any key on the path is absent. -/
def workspace_version (manifest : String) (doc : TomlItems) : Except Err Toml :=
  match getKey doc "workspace" with
  | none => .error (.systemExit (versionErrorMessage manifest))
  | some workspace =>
    match tomlGet workspace "package" with
    | none => .error (.systemExit (versionErrorMessage manifest))
    | some pkg =>
      match tomlGet pkg "version" with
      | none => .error (.systemExit (versionErrorMessage manifest))
      | some v => .ok v

/-- `remove_patch_entry`: delete one crate's entry from `[patch.crates-io]`,
dropping emptied parent tables; the document is returned unchanged when the
entry is absent (the file is rewritten only when the entry was present). -/
def remove_patch_entry (doc : TomlItems) (crate : String) : TomlItems :=
  match getKey doc "patch" with
  | none => doc
  | some patchTable =>
    match patchTable with
    | .table patchItems =>
      match getKey patchItems "crates-io" with
      | none => doc
      | some (.table cratesIoItems) =>
        if (getKey cratesIoItems crate).isSome then
          let cratesIoItems := delKey cratesIoItems crate
          let patchItems :=
            if cratesIoItems.isEmpty then delKey patchItems "crates-io"
            else setKey patchItems "crates-io" (.table cratesIoItems)
          if patchItems.isEmpty then delKey doc "patch"
          else setKey doc "patch" (.table patchItems)
        else doc
      | some _ => doc
    | _ => doc

/-- Manifests of the exported snapshot: the parsed root `Cargo.toml` together
with each crate's `crates/<name>/Cargo.toml`. -/
structure WsState where
  rootManifest : TomlItems
  crateManifests : List (String × TomlItems)

/-- Lookup of a crate manifest (reading `crates/<name>/Cargo.toml`). -/
def getCrateManifest : List (String × TomlItems) → String → Option TomlItems
  | [], _ => none
  | (k, v) :: rest, key => if k = key then some v else getCrateManifest rest key

/-- Write-back of a crate manifest. -/
def setCrateManifest : List (String × TomlItems) → String → TomlItems →
    List (String × TomlItems)
  | [], key, value => [(key, value)]
  | (k, v) :: rest, key, value =>
    if k = key then (k, value) :: rest
    else (k, v) :: setCrateManifest rest key value

/-- Path of a crate manifest inside the exported workspace. -/
def crateManifestPath (workspaceRoot crate : String) : String :=
  workspaceRoot ++ "/crates/" ++ crate ++ "/Cargo.toml"

/-- Loop body shared by both drafts of `apply_workspace_replacements`.  When
`skipUnknown` is true (publish_workspace.py) a crate without a configured
replacement set is skipped with `continue`; otherwise it is rewritten, with a
missing manifest file surfacing as `FileNotFoundError`. -/
def applyReplacementsLoop (workspaceRoot : String) (version : Toml)
    (includeLocalPath : Bool) (skipUnknown : Bool) :
    List String → List (String × TomlItems) →
    Except Err (List (String × TomlItems))
  | [], manifests => .ok manifests
  | crate :: rest, manifests =>
    if skipUnknown ∧ (lookupReplacements REPLACEMENTS crate).isNone then
      applyReplacementsLoop workspaceRoot version includeLocalPath skipUnknown
        rest manifests
    else
      match getCrateManifest manifests crate with
      | none => .error (.fileNotFound (crateManifestPath workspaceRoot crate))
      | some doc =>
        match apply_replacements crate (crateManifestPath workspaceRoot crate)
            doc version includeLocalPath with
        | .error e => .error e
        | .ok doc' =>
            applyReplacementsLoop workspaceRoot version includeLocalPath
              skipUnknown rest (setCrateManifest manifests crate doc')

/-- `apply_workspace_replacements` (publish_workspace.py, the draft imported
by `run_publish_check.py`): rewrite the targeted crates, silently skipping any
requested name without a configured replacement set. -/
def apply_workspace_replacements (workspaceRoot : String)
    (manifests : List (String × TomlItems)) (version : Toml)
    (includeLocalPath : Bool) (crates : Option (List String)) :
    Except Err (List (String × TomlItems)) :=
  let targets := crates.getD (REPLACEMENTS.map (·.1))
  applyReplacementsLoop workspaceRoot version includeLocalPath true
    targets manifests

/-- Requested names lacking a configured replacement set. -/
def unknownCrates (crates : List String) : List String :=
  crates.filter fun crate => (lookupReplacements REPLACEMENTS crate).isNone

/-- Diagnostic of the strict draft: `", ".join(repr(crate))` over the unknown
names. -/
def unknownCratesMessage (crates : List String) : String :=
  "unknown crates: " ++
    String.intercalate ", " ((unknownCrates crates).map fun c => "'" ++ c ++ "'")

/-- `apply_workspace_replacements` (publish_workspace_dependencies.py, the
strict draft): reject the whole call with a `SystemExit` naming every unknown
crate before any manifest is touched. -/
def deps_apply_workspace_replacements (workspaceRoot : String)
    (manifests : List (String × TomlItems)) (version : Toml)
    (includeLocalPath : Bool) (crates : Option (List String)) :
    Except Err (List (String × TomlItems)) :=
  match crates with
  | none =>
      applyReplacementsLoop workspaceRoot version includeLocalPath false
        (REPLACEMENTS.map (·.1)) manifests
  | some cs =>
      if unknownCrates cs = [] then
        applyReplacementsLoop workspaceRoot version includeLocalPath false
          cs manifests
      else .error (.systemExit (unknownCratesMessage cs))

/-! ## run_publish_check.py -/

/-- `CRATE_ORDER`: the orchestrator's catalogue (`PUBLISHABLE_CRATES`).  The
processing functions below take the catalogue as a parameter embedding this
module-level global; the shipped configuration instantiates it here. -/
def CRATE_ORDER : List String := PUBLISHABLE_CRATES

/-- `LOCKED_LIVE_CRATES`: crates whose publish commands pin resolution. -/
def LOCKED_LIVE_CRATES : List String := ["cargo-bdd"]

/-- `DEFAULT_LIVE_PUBLISH_COMMANDS`. -/
def DEFAULT_LIVE_PUBLISH_COMMANDS : List (List String) :=
  [["cargo", "publish", "--dry-run"], ["cargo", "publish"]]

/-- `LOCKED_LIVE_PUBLISH_COMMANDS`. -/
def LOCKED_LIVE_PUBLISH_COMMANDS : List (List String) :=
  [["cargo", "publish", "--dry-run", "--locked"], ["cargo", "publish", "--locked"]]

/-- `LIVE_PUBLISH_COMMANDS`: per-crate command sequences, built over the
catalogue exactly as the module-level dict comprehension does. -/
def LIVE_PUBLISH_COMMANDS : List (String × List (List String)) :=
  PUBLISHABLE_CRATES.map fun crate =>
    (crate,
      if crate ∈ LOCKED_LIVE_CRATES then LOCKED_LIVE_PUBLISH_COMMANDS
      else DEFAULT_LIVE_PUBLISH_COMMANDS)

/-- Dict lookup in `LIVE_PUBLISH_COMMANDS`. -/
def lookupLiveCommands : List (String × List (List String)) → String →
    Option (List (List String))
  | [], _ => none
  | (k, v) :: rest, key => if k = key then some v else lookupLiveCommands rest key

/-- `ALREADY_PUBLISHED_MARKERS`: the fixed marker set. -/
def ALREADY_PUBLISHED_MARKERS : List String :=
  [ "already exists on crates.io index",
    "already exists on crates.io",
    "already uploaded",
    "already exists" ]

/-- `ALREADY_PUBLISHED_MARKERS_FOLDED`: casefolded markers. -/
def ALREADY_PUBLISHED_MARKERS_FOLDED : List String :=
  ALREADY_PUBLISHED_MARKERS.map pyCasefold

/-- `DEFAULT_PUBLISH_TIMEOUT_SECS`. -/
def DEFAULT_PUBLISH_TIMEOUT_SECS : Int := 900

/-- `CommandResult`: one cargo invocation's argument vector, exit status and
captured output streams. -/
structure CommandResult where
  command : List String
  return_code : Int
  stdout : String
  stderr : String
deriving DecidableEq, Repr

/-- `CargoCommandContext`: where and how one cargo command runs. -/
structure CargoCommandContext where
  crate : String
  crateDir : String
  cargoHome : String
  timeoutSecs : Int
deriving DecidableEq, Repr

/-- `build_cargo_command_context` with an explicit (already resolved) timeout,
as every orchestrator call site supplies one (`_resolve_timeout` returns the
explicit argument unchanged; the environment-variable fallback is outside the
claims' scope). -/
def build_cargo_command_context (crate workspaceRoot : String)
    (timeoutSecs : Int) : CargoCommandContext :=
  { crate := crate
    crateDir := workspaceRoot ++ "/crates/" ++ crate
    cargoHome := workspaceRoot ++ "/.cargo-home"
    timeoutSecs := timeoutSecs }

/-- Outcome of one external cargo process: a timeout, or completion with an
exit status and captured output.  The oracle parameter of the runner maps the
crate (fixing the working directory) and the argument vector to its outcome. -/
inductive CmdOutcome where
  | timedOut
  | completed (returnCode : Int) (stdout stderr : String)
deriving DecidableEq, Repr

/-- Oracle describing the behaviour of the external `cargo` binary. -/
abbrev CargoOracle := String → List String → CmdOutcome

/-- Observable events of a run: process invocations, output relayed to the
caller's streams, the already-published warning, and the temporary-workspace
lifecycle. -/
inductive Event where
  | mkdtemp
  | invoked (crate : String) (command : List String)
  | printedStdout (s : String)
  | printedStderr (s : String)
  | warnedAlreadyPublished (crate : String)
  | preservedWorkspace
  | removedTree
deriving DecidableEq, Repr

/-- `_validate_cargo_command`: the vector must be non-empty and name `cargo`
first. -/
def validate_cargo_command : List String → Bool
  | [] => false
  | c :: _ => c = "cargo"

/-- Diagnostic raised on a process timeout (`{crate!r}` renders the crate name
between single quotes). -/
def timeoutMessage (crate : String) (timeoutSecs : Int) : String :=
  "cargo command timed out for '" ++ crate ++ "' after " ++
    toString timeoutSecs ++ " seconds"

/-- `_execute_cargo_command_with_timeout`: run the process, converting a
timeout into a fatal `SystemExit`; the trace records the single invocation. -/
def execute_cargo_command_with_timeout (oracle : CargoOracle)
    (context : CargoCommandContext) (command : List String) :
    Except Err CommandResult × List Event :=
  match oracle context.crate command with
  | .timedOut =>
      (.error (.systemExit (timeoutMessage context.crate context.timeoutSecs)),
        [.invoked context.crate command])
  | .completed code out errOut =>
      (.ok ⟨command, code, out, errOut⟩, [.invoked context.crate command])

/-- `_handle_command_output`: replay captured streams, printing each only when
non-empty. -/
def handle_command_output (stdout stderr : String) : List Event :=
  (if stdout.isEmpty then [] else [.printedStdout stdout]) ++
    (if stderr.isEmpty then [] else [.printedStderr stderr])

/-- Diagnostic of `_handle_command_failure` (its `LOGGER.error` replay of the
captured streams is logging, not modelled). -/
def commandFailureMessage (crate : String) (result : CommandResult) : String :=
  "cargo command failed for '" ++ crate ++ "': " ++ joinWords result.command ++
    " (exit code " ++ toString result.return_code ++ ")"

/-- A failure handler returns whether it handled the failure together with the
events it emitted; the closure-mutated `handled` flag of
`_publish_one_command` is embedded as this returned Boolean. -/
abbrev FailureHandler := String → CommandResult → Bool × List Event

/-- `_handle_cargo_result`: replay output on success; on failure consult the
optional handler, aborting with `_handle_command_failure` when unhandled.  The
Boolean reports whether the handler claimed the failure. -/
def handle_cargo_result (crate : String) (result : CommandResult)
    (onFailure : Option FailureHandler) :
    Except Err (List Event × Bool) :=
  if result.return_code = 0 then
    .ok (handle_command_output result.stdout result.stderr, false)
  else
    match onFailure with
    | some handler =>
      let (handled, events) := handler crate result
      if handled then .ok (events, true)
      else .error (.systemExit (commandFailureMessage crate result))
    | none => .error (.systemExit (commandFailureMessage crate result))

/-- `run_cargo_command`: validate, execute with timeout, dispatch the result.
Returns whether the failure handler claimed a failure, plus the event trace
(kept on the error paths too). -/
def run_cargo_command (oracle : CargoOracle) (context : CargoCommandContext)
    (command : List String) (onFailure : Option FailureHandler) :
    Except Err Bool × List Event :=
  if validate_cargo_command command then
    match execute_cargo_command_with_timeout oracle context command with
    | (.error e, events) => (.error e, events)
    | (.ok result, events) =>
      match handle_cargo_result context.crate result onFailure with
      | .ok (moreEvents, handled) => (.ok handled, events ++ moreEvents)
      | .error e => (.error e, events)
  else
    (.error (.valueError "run_cargo_command only accepts cargo invocations"), [])

/-- `package_crate`: `cargo package --allow-dirty --no-verify` for a crate
(`_create_cargo_action` instantiated at the `package` subcommand). -/
def package_crate (oracle : CargoOracle) (crate workspaceRoot : String)
    (timeoutSecs : Int) : Except Err Unit × List Event :=
  match run_cargo_command oracle
      (build_cargo_command_context crate workspaceRoot timeoutSecs)
      ["cargo", "package", "--allow-dirty", "--no-verify"] none with
  | (.error e, events) => (.error e, events)
  | (.ok _, events) => (.ok (), events)

/-- `check_crate`: `cargo check --all-features` for a crate. -/
def check_crate (oracle : CargoOracle) (crate workspaceRoot : String)
    (timeoutSecs : Int) : Except Err Unit × List Event :=
  match run_cargo_command oracle
      (build_cargo_command_context crate workspaceRoot timeoutSecs)
      ["cargo", "check", "--all-features"] none with
  | (.error e, events) => (.error e, events)
  | (.ok _, events) => (.ok (), events)

/-- `_contains_already_published_marker`: scan stdout then stderr, skipping
empty streams, and match any casefolded marker as a substring of the
casefolded stream (the `bytes` branch cannot arise for string streams). -/
def contains_already_published_marker (result : CommandResult) : Bool :=
  [result.stdout, result.stderr].any fun stream =>
    if stream.isEmpty then false
    else
      ALREADY_PUBLISHED_MARKERS_FOLDED.any fun marker =>
        containsSub marker (pyCasefold stream)

/-- The failure handler installed by `_publish_one_command`: claim the failure
exactly when the output carries an already-published marker, replaying the
captured streams and warning about the short-circuit. -/
def publishOnFailure (crate : String) : FailureHandler := fun _ result =>
  if contains_already_published_marker result then
    (true, handle_command_output result.stdout result.stderr ++
      [.warnedAlreadyPublished crate])
  else (false, [])

/-- `_publish_one_command`: run one publish command; the Boolean asks the
caller to short-circuit the remaining commands of the crate. -/
def publish_one_command (oracle : CargoOracle) (crate workspaceRoot : String)
    (timeoutSecs : Int) (command : List String) :
    Except Err Bool × List Event :=
  run_cargo_command oracle
    (build_cargo_command_context crate workspaceRoot timeoutSecs)
    command (some (publishOnFailure crate))

/-- The `for command in commands: if _publish_one_command(...): break` loop of
`publish_crate_commands`. -/
def publishCrateCommandsLoop (oracle : CargoOracle)
    (crate workspaceRoot : String) (timeoutSecs : Int) :
    List (List String) → Except Err Unit × List Event
  | [] => (.ok (), [])
  | command :: rest =>
    match publish_one_command oracle crate workspaceRoot timeoutSecs command with
    | (.error e, events) => (.error e, events)
    | (.ok handled, events) =>
      if handled then (.ok (), events)
      else
        match publishCrateCommandsLoop oracle crate workspaceRoot timeoutSecs
            rest with
        | (r, moreEvents) => (r, events ++ moreEvents)

/-- `publish_crate_commands`: run the configured live publish sequence of a
crate, aborting when the crate has no configured sequence. -/
def publish_crate_commands (oracle : CargoOracle)
    (crate workspaceRoot : String) (timeoutSecs : Int) :
    Except Err Unit × List Event :=
  match lookupLiveCommands LIVE_PUBLISH_COMMANDS crate with
  | none =>
      (.error (.systemExit ("missing live publish commands for '" ++ crate ++ "'")),
        [])
  | some commands =>
      publishCrateCommandsLoop oracle crate workspaceRoot timeoutSecs commands

/-- `CrateProcessingConfig`: declarative per-pass configuration.  The optional
per-crate cleanup is the root-manifest action invoked after each crate (the
live pass passes `remove_patch_entry`). -/
structure CrateProcessingConfig where
  stripPatch : Bool
  includeLocalPath : Bool
  applyPerCrate : Bool
  perCrateCleanup : Option (TomlItems → String → TomlItems) := none

/-- The per-crate loop of `_process_crates`: optional per-crate replacement
application, the crate action, then the optional cleanup on the root
manifest. -/
def processCratesLoop (workspaceRoot : String) (timeoutSecs : Int)
    (config : CrateProcessingConfig) (version : Toml)
    (action : String → Int → Except Err Unit × List Event) :
    List String → WsState → Except Err Unit × WsState × List Event
  | [], ws => (.ok (), ws, [])
  | crate :: rest, ws =>
    let prepared : Except Err WsState :=
      if config.applyPerCrate then
        match apply_workspace_replacements workspaceRoot ws.crateManifests
            version config.includeLocalPath (some [crate]) with
        | .error e => .error e
        | .ok manifests' => .ok { ws with crateManifests := manifests' }
      else .ok ws
    match prepared with
    | .error e => (.error e, ws, [])
    | .ok ws1 =>
      match action crate timeoutSecs with
      | (.error e, events) => (.error e, ws1, events)
      | (.ok (), events) =>
        let ws2 :=
          match config.perCrateCleanup with
          | some cleanup =>
              { ws1 with rootManifest := cleanup ws1.rootManifest crate }
          | none => ws1
        match processCratesLoop workspaceRoot timeoutSecs config version action
            rest ws2 with
        | (r, ws3, moreEvents) => (r, ws3, events ++ moreEvents)

/-- `_process_crates`: refuse an empty catalogue, strip the patch section when
configured, read the workspace version, apply replacements once for the whole
workspace unless configured per crate, then run the per-crate loop. -/
def process_crates (catalogue : List String) (workspaceRoot : String)
    (ws : WsState) (timeoutSecs : Int) (config : CrateProcessingConfig)
    (action : String → Int → Except Err Unit × List Event) :
    Except Err Unit × WsState × List Event :=
  if catalogue.isEmpty then
    (.error (.systemExit "CRATE_ORDER must not be empty"), ws, [])
  else
    let manifestPath := workspaceRoot ++ "/Cargo.toml"
    let root1 :=
      if config.stripPatch then strip_patch_section ws.rootManifest
      else ws.rootManifest
    let ws1 := { ws with rootManifest := root1 }
    match workspace_version manifestPath ws1.rootManifest with
    | .error e => (.error e, ws1, [])
    | .ok version =>
      let prepared : Except Err WsState :=
        if config.applyPerCrate then .ok ws1
        else
          match apply_workspace_replacements workspaceRoot ws1.crateManifests
              version config.includeLocalPath none with
          | .error e => .error e
          | .ok manifests' => .ok { ws1 with crateManifests := manifests' }
      match prepared with
      | .error e => (.error e, ws1, [])
      | .ok ws2 =>
          processCratesLoop workspaceRoot timeoutSecs config version action
            catalogue ws2

/-- The name-dispatched crate action of `_process_crates_for_check`:
`cargo package` for `rstest-bdd-patterns`, `cargo check` otherwise. -/
def checkCrateAction (oracle : CargoOracle) (workspaceRoot : String)
    (crate : String) (timeoutSecs : Int) : Except Err Unit × List Event :=
  if crate = "rstest-bdd-patterns" then
    package_crate oracle crate workspaceRoot timeoutSecs
  else
    check_crate oracle crate workspaceRoot timeoutSecs

/-- `_process_crates_for_check`: the validate pass (strip the patch table,
keep local paths, apply replacements once for the whole workspace). -/
def process_crates_for_check (oracle : CargoOracle) (catalogue : List String)
    (workspaceRoot : String) (ws : WsState) (timeoutSecs : Int) :
    Except Err Unit × WsState × List Event :=
  process_crates catalogue workspaceRoot ws timeoutSecs
    { stripPatch := true, includeLocalPath := true, applyPerCrate := false }
    (checkCrateAction oracle workspaceRoot)

/-- `_process_crates_for_live_publish`: the live pass (keep the patch table,
omit local paths, apply replacements per crate, remove each crate's patch
entry afterwards). -/
def process_crates_for_live_publish (oracle : CargoOracle)
    (catalogue : List String) (workspaceRoot : String) (ws : WsState)
    (timeoutSecs : Int) : Except Err Unit × WsState × List Event :=
  process_crates catalogue workspaceRoot ws timeoutSecs
    { stripPatch := false, includeLocalPath := false, applyPerCrate := true,
      perCrateCleanup := some remove_patch_entry }
    (publish_crate_commands oracle · workspaceRoot ·)

/-- Outcome of one orchestrator run: the returned-or-raised result, the event
trace, whether the temporary directory was created, and whether it still
exists on disk afterwards. -/
structure RunOutcome where
  result : Except Err Unit
  trace : List Event
  tmpdirCreated : Bool
  tmpdirExists : Bool
deriving Repr

/-- `run_publish_check`: reject a non-positive timeout, create the temporary
workspace, export the snapshot into it (`exportResult` is the Workspace
Exporter collaborator's outcome: the parsed manifests on success, its fatal
`SystemExit` on failure), prune the root member list, dispatch on the mode,
and in a guaranteed cleanup step preserve or recursively delete the directory
(`shutil.rmtree(..., ignore_errors=True)` also succeeds on a directory that is
already gone, hence deletion never raises). -/
def run_publish_check (oracle : CargoOracle) (exportResult : Except Err WsState)
    (catalogue : List String) (workspaceRoot : String) (keepTmp : Bool)
    (timeoutSecs : Int) (live : Bool) : RunOutcome :=
  if timeoutSecs ≤ 0 then
    { result := .error (.systemExit "timeout-secs must be a positive integer")
      trace := []
      tmpdirCreated := false
      tmpdirExists := false }
  else
    let body : Except Err Unit × List Event :=
      match exportResult with
      | .error e => (.error e, [])
      | .ok ws0 =>
        let root1 := (prune_workspace_members ws0.rootManifest).getD
          ws0.rootManifest
        let ws1 := { ws0 with rootManifest := root1 }
        let passResult :=
          if live then
            process_crates_for_live_publish oracle catalogue workspaceRoot ws1
              timeoutSecs
          else
            process_crates_for_check oracle catalogue workspaceRoot ws1
              timeoutSecs
        (passResult.1, passResult.2.2)
    if keepTmp then
      { result := body.1
        trace := .mkdtemp :: body.2 ++ [.preservedWorkspace]
        tmpdirCreated := true
        tmpdirExists := true }
    else
      { result := body.1
        trace := .mkdtemp :: body.2 ++ [.removedTree]
        tmpdirCreated := true
        tmpdirExists := false }

/-! ## Shared concrete instances used by witnesses and counterexamples -/

/-- Oracle under which every cargo invocation succeeds silently. -/
def allOkOracle : CargoOracle := fun _ _ => .completed 0 "" ""

/-- A minimal root manifest carrying a workspace version and a members list of
publishable crates. -/
def sampleRoot : TomlItems :=
  [("workspace", .table
    [("package", .table [("version", .str "0.1.0")]),
     ("members", .arr [.str "crates/rstest-bdd", .str "crates/cargo-bdd"])])]

/-- Crate manifests carrying exactly the dependency entries that the
replacement table rewrites. -/
def sampleCrateManifests : List (String × TomlItems) :=
  [ ("rstest-bdd-macros",
      [("dependencies",
          .table [("rstest-bdd-patterns", .table [("workspace", .bool true)])]),
       ("dev-dependencies",
          .table [("rstest-bdd", .table [("workspace", .bool true)])])]),
    ("rstest-bdd",
      [("dependencies",
          .table [("rstest-bdd-patterns", .table [("workspace", .bool true)])]),
       ("dev-dependencies",
          .table [("rstest-bdd-macros", .table [("workspace", .bool true)])])]),
    ("cargo-bdd",
      [("dependencies",
          .table [("rstest-bdd", .table [("workspace", .bool true)])])]) ]

/-- A snapshot state exposing the sample manifests. -/
def sampleWs : WsState := ⟨sampleRoot, sampleCrateManifests⟩

/-! ## Substring lemmas -/

theorem charsHasStart_self (l : List Char) : charsHasStart l l = true := by
  induction l with
  | nil => rfl
  | cons a as ih => simp [charsHasStart, ih]

theorem charsHasStart_append (n xs ys : List Char)
    (h : charsHasStart n xs = true) : charsHasStart n (xs ++ ys) = true := by
  induction n generalizing xs with
  | nil => rfl
  | cons a as ih =>
    cases xs with
    | nil => simp [charsHasStart] at h
    | cons b bs =>
      simp only [charsHasStart, Bool.and_eq_true, decide_eq_true_eq] at h
      simp only [List.cons_append, charsHasStart, Bool.and_eq_true,
        decide_eq_true_eq]
      exact ⟨h.1, ih bs h.2⟩

theorem charsHasSub_append_left (n xs ys : List Char)
    (h : charsHasSub n xs = true) : charsHasSub n (xs ++ ys) = true := by
  induction xs with
  | nil =>
    cases n with
    | nil =>
      cases ys with
      | nil => rfl
      | cons b bs => simp [charsHasSub, charsHasStart]
    | cons a as => simp [charsHasSub, charsHasStart] at h
  | cons b bs ih =>
    simp only [charsHasSub, Bool.or_eq_true] at h
    rcases h with h | h
    · simp only [List.cons_append, charsHasSub, Bool.or_eq_true]
      exact Or.inl (charsHasStart_append n (b :: bs) ys h)
    · simp only [List.cons_append, charsHasSub, Bool.or_eq_true]
      exact Or.inr (ih h)

theorem charsHasSub_append_right (n xs ys : List Char)
    (h : charsHasSub n ys = true) : charsHasSub n (xs ++ ys) = true := by
  induction xs with
  | nil => simpa using h
  | cons b bs ih =>
    simp only [List.cons_append, charsHasSub, Bool.or_eq_true]
    exact Or.inr ih

theorem charsHasSub_self (l : List Char) : charsHasSub l l = true := by
  cases l with
  | nil => rfl
  | cons a as => simp [charsHasSub, charsHasStart_self]

theorem charsHasSub_nil_of_ne (n : List Char) (h : n ≠ []) :
    charsHasSub n [] = false := by
  cases n with
  | nil => exact absurd rfl h
  | cons a as => rfl

/-- Substring containment extends from any middle factor to the whole list. -/
theorem charsHasSub_factor (n pre mid post : List Char)
    (h : charsHasSub n mid = true) :
    charsHasSub n (pre ++ mid ++ post) = true := by
  have h1 := charsHasSub_append_left n mid post h
  have h2 := charsHasSub_append_right n pre (mid ++ post) h1
  simpa [List.append_assoc] using h2

theorem containsSub_empty_right (n : String) (h : n.data ≠ []) :
    containsSub n "" = false := by
  unfold containsSub
  exact charsHasSub_nil_of_ne n.data h

/-! ## C5: already-published classification -/

theorem alreadyPublishedMarkersNonempty :
    ∀ m ∈ ALREADY_PUBLISHED_MARKERS, (pyCasefold m).data ≠ [] := by decide

theorem pyCasefold_empty : pyCasefold "" = "" := rfl

/-- One stream's scan (the loop body of `_contains_already_published_marker`)
matches the casefolded-substring specification. -/
theorem markerStreamScan (stream : String) :
    (if stream.isEmpty then false
     else ALREADY_PUBLISHED_MARKERS_FOLDED.any fun marker =>
       containsSub marker (pyCasefold stream)) = true ↔
      ∃ m ∈ ALREADY_PUBLISHED_MARKERS,
        containsSub (pyCasefold m) (pyCasefold stream) = true := by
  by_cases he : stream.isEmpty
  · have hs : stream = "" := (String.isEmpty_iff stream).mp he
    subst hs
    simp only [he, if_true]
    constructor
    · intro h
      exact absurd h Bool.false_ne_true
    · rintro ⟨m, hm, hsub⟩
      rw [pyCasefold_empty,
        containsSub_empty_right (pyCasefold m)
          (alreadyPublishedMarkersNonempty m hm)] at hsub
      exact absurd hsub Bool.false_ne_true
  · have he' : stream.isEmpty = false := by
      cases h : stream.isEmpty
      · rfl
      · exact absurd h he
    rw [he', if_neg Bool.false_ne_true, List.any_eq_true]
    constructor
    · rintro ⟨marker, hmem, hsub⟩
      rw [ALREADY_PUBLISHED_MARKERS_FOLDED, List.mem_map] at hmem
      obtain ⟨m, hm, rfl⟩ := hmem
      exact ⟨m, hm, hsub⟩
    · rintro ⟨m, hm, hsub⟩
      exact ⟨pyCasefold m,
        by rw [ALREADY_PUBLISHED_MARKERS_FOLDED]; exact List.mem_map_of_mem _ hm,
        hsub⟩

/-- C5: a failed command result is classified as already-published exactly
when its stdout or its stderr contains at least one marker phrase of the
fixed set under casefolded substring comparison. -/
theorem already_published_marker_iff_spec (result : CommandResult) :
    contains_already_published_marker result = true ↔
      ∃ m ∈ ALREADY_PUBLISHED_MARKERS,
        (containsSub (pyCasefold m) (pyCasefold result.stdout) = true ∨
         containsSub (pyCasefold m) (pyCasefold result.stderr) = true) := by
  unfold contains_already_published_marker
  simp only [List.any_cons, List.any_nil, Bool.or_false, Bool.or_eq_true]
  rw [markerStreamScan result.stdout, markerStreamScan result.stderr]
  constructor
  · rintro (⟨m, hm, h⟩ | ⟨m, hm, h⟩)
    · exact ⟨m, hm, Or.inl h⟩
    · exact ⟨m, hm, Or.inr h⟩
  · rintro ⟨m, hm, h | h⟩
    · exact Or.inl ⟨m, hm, h⟩
    · exact Or.inr ⟨m, hm, h⟩

/-! ## C8: fatal on non-positive timeout -/

/-- C8: a run invoked with a non-positive timeout raises the configuration
`SystemExit` with an empty event trace — before the temporary directory is
created and before any export or command execution. -/
theorem nonpositive_timeout_rejected_early (oracle : CargoOracle)
    (exportResult : Except Err WsState) (catalogue : List String)
    (workspaceRoot : String) (keepTmp live : Bool) (timeoutSecs : Int)
    (h : timeoutSecs ≤ 0) :
    run_publish_check oracle exportResult catalogue workspaceRoot keepTmp
        timeoutSecs live =
      { result := .error (.systemExit "timeout-secs must be a positive integer")
        trace := []
        tmpdirCreated := false
        tmpdirExists := false } := by
  unfold run_publish_check
  rw [if_pos h]

/-- C8 witness at timeout 0. -/
theorem nonpositive_timeout_rejected_early_witness :
    run_publish_check allOkOracle (.ok sampleWs) CRATE_ORDER "/ws" false 0
        false =
      { result := .error (.systemExit "timeout-secs must be a positive integer")
        trace := []
        tmpdirCreated := false
        tmpdirExists := false } :=
  nonpositive_timeout_rejected_early allOkOracle (.ok sampleWs) CRATE_ORDER
    "/ws" false false 0 (by decide)

/-! ## C6: cleanup guarantee -/

/-- C6: whatever the oracle, export outcome, catalogue, mode and timeout, a
run with `keep_tmp = False` leaves no temporary directory on disk afterwards,
and whenever the directory was created the deletion step appears in the trace
(the deletion itself never raises: `ignore_errors=True` also tolerates a
directory that is already gone). -/
theorem cleanup_removes_tmpdir (oracle : CargoOracle)
    (exportResult : Except Err WsState) (catalogue : List String)
    (workspaceRoot : String) (keepTmp live : Bool) (timeoutSecs : Int)
    (h : keepTmp = false) :
    (run_publish_check oracle exportResult catalogue workspaceRoot keepTmp
        timeoutSecs live).tmpdirExists = false ∧
    ((run_publish_check oracle exportResult catalogue workspaceRoot keepTmp
        timeoutSecs live).tmpdirCreated = true →
      Event.removedTree ∈
        (run_publish_check oracle exportResult catalogue workspaceRoot keepTmp
          timeoutSecs live).trace) := by
  subst h
  by_cases ht : timeoutSecs ≤ 0
  · simp [run_publish_check, ht]
  · simp [run_publish_check, ht]

/-- C6 witness: a failing run (empty catalogue) with `keep_tmp = False`. -/
theorem cleanup_removes_tmpdir_witness :
    (run_publish_check allOkOracle (.ok sampleWs) [] "/ws" false 5
        false).tmpdirExists = false ∧
    ((run_publish_check allOkOracle (.ok sampleWs) [] "/ws" false 5
        false).tmpdirCreated = true →
      Event.removedTree ∈
        (run_publish_check allOkOracle (.ok sampleWs) [] "/ws" false 5
          false).trace) :=
  cleanup_removes_tmpdir allOkOracle (.ok sampleWs) [] "/ws" false false 5 rfl

/-! ## C10: member pruning leaves compliant manifests untouched -/

/-- When every member entry is kept by the eligibility test, the filter
returns the list unchanged and reports no mutation. -/
theorem filter_workspace_members_unchanged (members : List Toml)
    (h : ∀ e ∈ members, ∃ s, e = Toml.str s ∧ posixName s ∈ PUBLISHABLE_CRATES) :
    filter_workspace_members members = (members, false) := by
  induction members with
  | nil => rfl
  | cons e rest ih =>
    have hrest := ih fun x hx => h x (List.mem_cons_of_mem e hx)
    obtain ⟨s, rfl, hs⟩ := h e (List.mem_cons_self e rest)
    unfold filter_workspace_members
    rw [hrest]
    simp only [hs, if_pos]

/-- C10: a manifest whose workspace member list holds only string entries
whose final path component names a publishable crate is never written back —
`prune_workspace_members` leaves the file untouched byte for byte. -/
theorem prune_keeps_compliant_manifest (doc : TomlItems) (workspace : Toml)
    (members : List Toml)
    (hw : getKey doc "workspace" = some workspace)
    (hm : tomlGet workspace "members" = some (.arr members))
    (h : ∀ e ∈ members, ∃ s, e = Toml.str s ∧ posixName s ∈ PUBLISHABLE_CRATES) :
    prune_workspace_members doc = none := by
  have hf := filter_workspace_members_unchanged members h
  simp [prune_workspace_members, get_valid_workspace_members, hw, hm, hf]

/-- C10 witness on the sample root manifest. -/
theorem prune_keeps_compliant_manifest_witness :
    prune_workspace_members sampleRoot = none :=
  prune_keeps_compliant_manifest sampleRoot
    (.table [("package", .table [("version", .str "0.1.0")]),
      ("members", .arr [.str "crates/rstest-bdd", .str "crates/cargo-bdd"])])
    [.str "crates/rstest-bdd", .str "crates/cargo-bdd"] rfl rfl
    (by
      intro e he
      simp only [List.mem_cons, List.not_mem_nil, or_false] at he
      rcases he with rfl | rfl
      · exact ⟨"crates/rstest-bdd", rfl, by decide⟩
      · exact ⟨"crates/cargo-bdd", rfl, by decide⟩)

/-! ## C1: empty catalogue -/

/-- C1 counterexample: with an empty catalogue the run does raise the
configuration `SystemExit`, but the temporary directory has already been
created by then — refuting "raised before any temporary directory is
created". -/
theorem empty_catalogue_tmpdir_created_counterexample :
    (run_publish_check allOkOracle (.ok sampleWs) [] "/ws" false 1
        false).result = .error (.systemExit "CRATE_ORDER must not be empty") ∧
    (run_publish_check allOkOracle (.ok sampleWs) [] "/ws" false 1
        false).tmpdirCreated = true := ⟨rfl, rfl⟩

/-- C1 amended: an empty catalogue raises the configuration `SystemExit`
"CRATE_ORDER must not be empty", though only after the temporary directory has
been created (and the snapshot exported into it); no cargo command is ever
invoked, and when `keep_tmp=False` the guaranteed cleanup removes the
directory again. -/
theorem empty_catalogue_error_after_mkdtemp (oracle : CargoOracle)
    (ws : WsState) (workspaceRoot : String) (keepTmp live : Bool)
    (timeoutSecs : Int) (ht : 0 < timeoutSecs) :
    (run_publish_check oracle (.ok ws) [] workspaceRoot keepTmp timeoutSecs
        live).result = .error (.systemExit "CRATE_ORDER must not be empty") ∧
    (run_publish_check oracle (.ok ws) [] workspaceRoot keepTmp timeoutSecs
        live).tmpdirCreated = true ∧
    (keepTmp = false →
      (run_publish_check oracle (.ok ws) [] workspaceRoot keepTmp timeoutSecs
        live).tmpdirExists = false) ∧
    (∀ c cmd, Event.invoked c cmd ∉
      (run_publish_check oracle (.ok ws) [] workspaceRoot keepTmp timeoutSecs
        live).trace) := by
  have ht' : ¬timeoutSecs ≤ 0 := not_le.mpr ht
  cases live <;> cases keepTmp <;>
    simp [run_publish_check, ht', process_crates_for_check,
      process_crates_for_live_publish, process_crates]

/-- C1 witness for the amended statement. -/
theorem empty_catalogue_error_after_mkdtemp_witness :
    0 < (1 : Int) ∧
    ((run_publish_check allOkOracle (.ok sampleWs) [] "/ws" false 1
        true).result = .error (.systemExit "CRATE_ORDER must not be empty") ∧
     (run_publish_check allOkOracle (.ok sampleWs) [] "/ws" false 1
        true).tmpdirCreated = true ∧
     (false = false →
       (run_publish_check allOkOracle (.ok sampleWs) [] "/ws" false 1
         true).tmpdirExists = false) ∧
     (∀ c cmd, Event.invoked c cmd ∉
       (run_publish_check allOkOracle (.ok sampleWs) [] "/ws" false 1
         true).trace)) :=
  ⟨by decide,
    empty_catalogue_error_after_mkdtemp allOkOracle sampleWs "/ws" false true 1
      (by decide)⟩

/-! ## C2: unrecognized names in dependency rewriting -/

/-- C2 counterexample: the draft of `apply_workspace_replacements` in
`publish_workspace.py` — the one `run_publish_check.py` imports — completes
normally on a requested name without a configured replacement set
(`rstest-bdd-patterns` has none), rewriting nothing, instead of raising
`SystemExit`. -/
theorem replacement_unknown_name_skipped_counterexample :
    apply_workspace_replacements "/ws" [] (.str "1.0.0") false
        (some ["rstest-bdd-patterns"]) = .ok [] := rfl

/-- The lenient loop ignores every requested name lacking a replacement
set. -/
theorem applyReplacementsLoop_skips_unknown (workspaceRoot : String)
    (version : Toml) (ilp : Bool) :
    ∀ (crates : List String) (manifests : List (String × TomlItems)),
      (∀ c ∈ crates, lookupReplacements REPLACEMENTS c = none) →
      applyReplacementsLoop workspaceRoot version ilp true crates manifests =
        .ok manifests := by
  intro crates
  induction crates with
  | nil => intro manifests _; rfl
  | cons c rest ih =>
    intro manifests h
    have hc : lookupReplacements REPLACEMENTS c = none :=
      h c (List.mem_cons_self c rest)
    have hrest := ih manifests fun x hx => h x (List.mem_cons_of_mem c hx)
    simpa [applyReplacementsLoop, hc] using hrest

/-- C2 amended: the strict draft (`publish_workspace_dependencies.py`) and
`publish_patch.apply_replacements` fail fatally with `SystemExit` on an
unrecognized requested name, whereas the draft in `publish_workspace.py` —
the one the orchestrator imports — silently skips such names and completes
normally without rewriting them. -/
theorem replacement_unknown_name_policy :
    (∀ (workspaceRoot : String) (manifests : List (String × TomlItems))
        (version : Toml) (ilp : Bool) (crates : List String),
      unknownCrates crates ≠ [] →
      deps_apply_workspace_replacements workspaceRoot manifests version ilp
          (some crates) =
        .error (.systemExit (unknownCratesMessage crates))) ∧
    (∀ (crate manifest : String) (doc : TomlItems) (version : Toml)
        (ilp : Bool),
      lookupReplacements REPLACEMENTS crate = none →
      apply_replacements crate manifest doc version ilp =
        .error (.systemExit ("unknown crate '" ++ crate ++ "'"))) ∧
    (∀ (workspaceRoot : String) (manifests : List (String × TomlItems))
        (version : Toml) (ilp : Bool) (crates : List String),
      (∀ c ∈ crates, lookupReplacements REPLACEMENTS c = none) →
      apply_workspace_replacements workspaceRoot manifests version ilp
          (some crates) = .ok manifests) := by
  refine ⟨?_, ?_, ?_⟩
  · intro workspaceRoot manifests version ilp crates h
    simp only [deps_apply_workspace_replacements]
    rw [if_neg h]
  · intro crate manifest doc version ilp h
    unfold apply_replacements
    rw [h]
  · intro workspaceRoot manifests version ilp crates h
    unfold apply_workspace_replacements
    exact applyReplacementsLoop_skips_unknown workspaceRoot version ilp crates
      manifests h

/-- C2 witness for the amended statement. -/
theorem replacement_unknown_name_policy_witness :
    deps_apply_workspace_replacements "/ws" [] (.str "1.0.0") false
        (some ["nope"]) = .error (.systemExit "unknown crates: 'nope'") ∧
    apply_replacements "nope" "/ws/crates/nope/Cargo.toml" [] (.str "1.0.0")
        false = .error (.systemExit "unknown crate 'nope'") ∧
    apply_workspace_replacements "/ws" [] (.str "1.0.0") true
        (some ["rstest-bdd-patterns"]) = .ok [] :=
  ⟨replacement_unknown_name_policy.1 "/ws" [] (.str "1.0.0") false ["nope"]
      (by decide),
   replacement_unknown_name_policy.2.1 "nope" "/ws/crates/nope/Cargo.toml" []
      (.str "1.0.0") false rfl,
   replacement_unknown_name_policy.2.2 "/ws" [] (.str "1.0.0") true
      ["rstest-bdd-patterns"]
      (by
        intro c hc
        simp only [List.mem_cons, List.not_mem_nil, or_false] at hc
        subst hc
        rfl)⟩

/-! ## C7: timeout handling -/

/-- C7: when the external process exceeds the wall-clock bound the runner
fails fatally at once: the result is a `SystemExit` after exactly one
invocation (no retry), the diagnostic states "timed out" and "after N seconds"
with the configured number of seconds, and it can never coincide with an
ordinary command-failure diagnostic. -/
theorem timeout_aborts_fatally (oracle : CargoOracle)
    (context : CargoCommandContext) (command : List String)
    (onFailure : Option FailureHandler)
    (hv : validate_cargo_command command = true)
    (ht : oracle context.crate command = .timedOut) :
    run_cargo_command oracle context command onFailure =
      (.error (.systemExit (timeoutMessage context.crate context.timeoutSecs)),
        [.invoked context.crate command]) ∧
    containsSub "timed out"
      (timeoutMessage context.crate context.timeoutSecs) = true ∧
    containsSub ("after " ++ toString context.timeoutSecs ++ " seconds")
      (timeoutMessage context.crate context.timeoutSecs) = true ∧
    (∀ (crate' : String) (result' : CommandResult),
      timeoutMessage context.crate context.timeoutSecs ≠
        commandFailureMessage crate' result') := by
  refine ⟨?_, ?_, ?_, ?_⟩
  · simp [run_cargo_command, hv, execute_cargo_command_with_timeout, ht]
  · unfold containsSub timeoutMessage
    have hmsg : ("cargo command timed out for '" ++ context.crate ++
        "' after " ++ toString context.timeoutSecs ++ " seconds").data =
        ("cargo command timed out for '").data ++
          (context.crate.data ++ (("' after ").data ++
            ((toString context.timeoutSecs).data ++ (" seconds").data))) := by
      simp only [String.data_append, List.append_assoc]
    rw [hmsg]
    apply charsHasSub_append_left
    decide
  · unfold containsSub timeoutMessage
    have hneedle : ("after " ++ toString context.timeoutSecs ++
        " seconds").data =
        ("after ").data ++
          ((toString context.timeoutSecs).data ++ (" seconds").data) := by
      simp only [String.data_append, List.append_assoc]
    have hmsg : ("cargo command timed out for '" ++ context.crate ++
        "' after " ++ toString context.timeoutSecs ++ " seconds").data =
        (("cargo command timed out for '").data ++
          (context.crate.data ++ ("' ").data)) ++
          (("after ").data ++
            ((toString context.timeoutSecs).data ++ (" seconds").data)) := by
      simp only [String.data_append, List.append_assoc]
      rfl
    rw [hneedle, hmsg]
    exact charsHasSub_append_right _ _ _ (charsHasSub_self _)
  · intro crate' result' heq
    have hdl := congrArg (fun s => s.data.getLast?) heq
    have hL : (timeoutMessage context.crate context.timeoutSecs).data.getLast? =
        some 's' := by
      unfold timeoutMessage
      rw [String.data_append, List.getLast?_append]
      rfl
    have hR : (commandFailureMessage crate' result').data.getLast? =
        some ')' := by
      unfold commandFailureMessage
      rw [String.data_append, List.getLast?_append]
      rfl
    simp only [hL, hR] at hdl
    exact absurd hdl (by decide)

/-- C7 witness: a timing-out `cargo publish` for `rstest-bdd`. -/
theorem timeout_aborts_fatally_witness :
    run_cargo_command (fun _ _ => .timedOut)
        (build_cargo_command_context "rstest-bdd" "/ws" 5)
        ["cargo", "publish"] none =
      (.error (.systemExit (timeoutMessage "rstest-bdd" 5)),
        [.invoked "rstest-bdd" ["cargo", "publish"]]) ∧
    containsSub "timed out" (timeoutMessage "rstest-bdd" 5) = true ∧
    containsSub ("after " ++ toString (5 : Int) ++ " seconds")
      (timeoutMessage "rstest-bdd" 5) = true ∧
    (∀ (crate' : String) (result' : CommandResult),
      timeoutMessage "rstest-bdd" 5 ≠ commandFailureMessage crate' result') :=
  timeout_aborts_fatally (fun _ _ => .timedOut)
    (build_cargo_command_context "rstest-bdd" "/ws" 5) ["cargo", "publish"]
    none (by decide) rfl

/-! ## C9: rebuilt dependency entries -/

theorem getKey_cons (k' : String) (v' : Toml) (rest : TomlItems) (key : String) :
    getKey ((k', v') :: rest) key =
      if k' = key then some v' else getKey rest key := rfl

theorem setKey_of_not_mem (k : String) (v : Toml) :
    ∀ (items : TomlItems), k ∉ items.map Prod.fst →
      setKey items k v = items ++ [(k, v)] := by
  intro items
  induction items with
  | nil => intro _; rfl
  | cons p rest ih =>
    intro h
    simp only [List.map_cons, List.mem_cons, not_or] at h
    obtain ⟨hk, hrest⟩ := h
    obtain ⟨k', v'⟩ := p
    simp only at hk
    unfold setKey
    rw [if_neg fun hkk => hk hkk.symm, ih hrest, List.cons_append]

theorem foldl_setKey_append :
    ∀ (xs acc : TomlItems),
      (∀ p ∈ xs, p.1 ∉ acc.map Prod.fst) → (xs.map Prod.fst).Nodup →
      xs.foldl (fun a p => setKey a p.1 p.2) acc = acc ++ xs := by
  intro xs
  induction xs with
  | nil => intro acc _ _; simp
  | cons x rest ih =>
    intro acc h hnd
    have hx : x.1 ∉ acc.map Prod.fst := h x (List.mem_cons_self x rest)
    simp only [List.map_cons, List.nodup_cons] at hnd
    have hstep : setKey acc x.1 x.2 = acc ++ [x] :=
      setKey_of_not_mem x.1 x.2 acc hx
    rw [List.foldl_cons, hstep, ih (acc ++ [x]) ?_ hnd.2]
    · rw [List.append_assoc]
      rfl
    · intro p hp
      simp only [List.map_append, List.mem_append, List.map_cons,
        List.map_nil, List.mem_singleton, not_or]
      refine ⟨fun hmem => h p (List.mem_cons_of_mem x hp) hmem, fun heq => ?_⟩
      exact hnd.1 (heq ▸ List.mem_map_of_mem Prod.fst hp)

theorem getKey_none_of_not_mem (k : String) :
    ∀ (items : TomlItems), (∀ p ∈ items, p.1 ≠ k) → getKey items k = none := by
  intro items
  induction items with
  | nil => intro _; rfl
  | cons p rest ih =>
    intro h
    obtain ⟨k', v'⟩ := p
    rw [getKey_cons, if_neg (h (k', v') (List.mem_cons_self _ _)),
      ih fun q hq => h q (List.mem_cons_of_mem _ hq)]

/-- The metadata filter of `extract_existing_items` does not disturb lookups
at keys it keeps. -/
theorem getKey_extract_filter (k : String) (hw : k ≠ "workspace")
    (hp : k ≠ "path") (hv : k ≠ "version") :
    ∀ (items : TomlItems),
      getKey (items.filter fun p =>
        p.1 ≠ "workspace" && p.1 ≠ "path" && p.1 ≠ "version") k =
      getKey items k := by
  intro items
  induction items with
  | nil => rfl
  | cons p rest ih =>
    obtain ⟨k', v'⟩ := p
    by_cases hkk : k' = k
    · subst hkk
      have hpred : (k' ≠ "workspace" && k' ≠ "path" && k' ≠ "version") = true := by
        simp [hw, hp, hv]
      simp only [List.filter_cons, hpred, if_pos]
      rw [getKey_cons, if_pos rfl, getKey_cons, if_pos rfl]
    · rw [getKey_cons, if_neg hkk]
      by_cases hpred : (k' ≠ "workspace" && k' ≠ "path" && k' ≠ "version") = true
      · simp only [List.filter_cons, hpred, if_pos]
        rw [getKey_cons, if_neg hkk, ih]
      · simp only [List.filter_cons, Bool.not_eq_true] at hpred ⊢
        rw [hpred]
        simp only [Bool.false_eq_true, if_false]
        exact ih

/-- Keys of the retained metadata avoid the rebuilt entry's reserved keys. -/
theorem extract_filter_keys (items : TomlItems) :
    ∀ p ∈ (items.filter fun q =>
        q.1 ≠ "workspace" && q.1 ≠ "path" && q.1 ≠ "version"),
      p.1 ≠ "workspace" ∧ p.1 ≠ "path" ∧ p.1 ≠ "version" := by
  intro p hp
  have := List.of_mem_filter hp
  simp only [Bool.and_eq_true, decide_eq_true_eq, ne_eq] at this
  exact ⟨this.1.1, this.1.2, this.2⟩

/-- Nodup keys survive the metadata filter. -/
theorem extract_filter_nodup (items : TomlItems)
    (h : (items.map Prod.fst).Nodup) :
    (((items.filter fun q =>
        q.1 ≠ "workspace" && q.1 ≠ "path" && q.1 ≠ "version")).map
      Prod.fst).Nodup :=
  h.sublist (List.Sublist.map Prod.fst (List.filter_sublist items))

/-- C9: a rewritten dependency entry keeps every pre-existing metadata key
other than `workspace`, `path` and `version` unchanged, always carries a
`version` key with the configured version, and carries a `path` key exactly
when local paths are requested. -/
theorem rewrite_preserves_extra_metadata (manifest : String) (doc : TomlItems)
    (patch : DependencyPatch) (config : DependencyConfig)
    (secItems items : TomlItems)
    (hsec : getKey doc patch.section_ = some (.table secItems))
    (hdep : getKey secItems patch.name = some (.table items))
    (hnodup : (items.map Prod.fst).Nodup) :
    ∃ newItems,
      update_dependency manifest doc patch config =
        .ok (setKey doc patch.section_
          (.table (setKey secItems patch.name (.table newItems)))) ∧
      getKey newItems "version" = some config.version ∧
      getKey newItems "path" =
        (if config.includeLocalPath then some (.str patch.path) else none) ∧
      (∀ k, k ≠ "workspace" → k ≠ "path" → k ≠ "version" →
        getKey newItems k = getKey items k) := by
  obtain ⟨version, ilp⟩ := config
  have hkeys := extract_filter_keys items
  have hnd := extract_filter_nodup items hnodup
  cases ilp
  · refine ⟨[("version", version)] ++ (items.filter fun q =>
      q.1 ≠ "workspace" && q.1 ≠ "path" && q.1 ≠ "version"), ?_, ?_, ?_, ?_⟩
    · have hbuild : build_inline_dependency
          (extract_existing_items (.table items)) patch.path version false =
          .table ([("version", version)] ++ (items.filter fun q =>
            q.1 ≠ "workspace" && q.1 ≠ "path" && q.1 ≠ "version")) := by
        unfold build_inline_dependency extract_existing_items
        simp only [Bool.false_eq_true, if_false]
        rw [show setKey [] "version" version = [("version", version)] from rfl,
          foldl_setKey_append _ [("version", version)] ?_ hnd]
        intro p hp
        simp only [List.map_cons, List.map_nil, List.mem_singleton]
        exact (hkeys p hp).2.2
      simp only [update_dependency, hsec, tomlGet, hdep, hbuild]
    · rw [List.cons_append, getKey_cons, if_pos rfl]
    · simp only [Bool.false_eq_true, if_false]
      rw [List.cons_append, getKey_cons, if_neg (by decide),
        List.nil_append,
        getKey_none_of_not_mem "path" _ fun p hp => (hkeys p hp).2.1]
    · intro k hw hp hv
      rw [List.cons_append, getKey_cons, if_neg fun h => hv h.symm,
        List.nil_append]
      exact getKey_extract_filter k hw hp hv items
  · refine ⟨[("path", .str patch.path), ("version", version)] ++
      (items.filter fun q =>
        q.1 ≠ "workspace" && q.1 ≠ "path" && q.1 ≠ "version"), ?_, ?_, ?_, ?_⟩
    · have hbuild : build_inline_dependency
          (extract_existing_items (.table items)) patch.path version true =
          .table ([("path", .str patch.path), ("version", version)] ++
            (items.filter fun q =>
              q.1 ≠ "workspace" && q.1 ≠ "path" && q.1 ≠ "version")) := by
        unfold build_inline_dependency extract_existing_items
        simp only [if_true]
        rw [show setKey (setKey [] "path" (.str patch.path)) "version" version =
            [("path", Toml.str patch.path), ("version", version)] from rfl,
          foldl_setKey_append _ _ ?_ hnd]
        intro p hp
        simp only [List.map_cons, List.map_nil, List.mem_cons,
          List.mem_singleton, not_or]
        exact ⟨(hkeys p hp).2.1, (hkeys p hp).2.2, List.not_mem_nil _⟩
      simp only [update_dependency, hsec, tomlGet, hdep, hbuild]
    · rw [List.cons_append, getKey_cons, if_neg (by decide), List.cons_append,
        getKey_cons, if_pos rfl]
    · simp only [if_true]
      rw [List.cons_append, getKey_cons, if_pos rfl]
    · intro k hw hp hv
      rw [List.cons_append, getKey_cons, if_neg fun h => hp h.symm,
        List.cons_append, getKey_cons, if_neg fun h => hv h.symm,
        List.nil_append]
      exact getKey_extract_filter k hw hp hv items

/-- C9 witness: rewriting `rstest-bdd-patterns` inside a `[dependencies]`
table that also carries `default-features`. -/
theorem rewrite_preserves_extra_metadata_witness :
    ∃ newItems,
      update_dependency "/ws/crates/rstest-bdd/Cargo.toml"
          [("dependencies", .table [("rstest-bdd-patterns",
            .table [("workspace", .bool true),
              ("default-features", .bool false)])])]
          ⟨"dependencies", "rstest-bdd-patterns", "../rstest-bdd-patterns"⟩
          ⟨.str "1.2.3", true⟩ =
        .ok (setKey [("dependencies", .table [("rstest-bdd-patterns",
            .table [("workspace", .bool true),
              ("default-features", .bool false)])])] "dependencies"
          (.table (setKey [("rstest-bdd-patterns",
            .table [("workspace", .bool true),
              ("default-features", .bool false)])] "rstest-bdd-patterns"
            (.table newItems)))) ∧
      getKey newItems "version" = some (.str "1.2.3") ∧
      getKey newItems "path" =
        (if (true : Bool) then some (.str "../rstest-bdd-patterns") else none) ∧
      (∀ k, k ≠ "workspace" → k ≠ "path" → k ≠ "version" →
        getKey newItems k =
          getKey [("workspace", Toml.bool true),
            ("default-features", Toml.bool false)] k) :=
  rewrite_preserves_extra_metadata "/ws/crates/rstest-bdd/Cargo.toml"
    [("dependencies", .table [("rstest-bdd-patterns",
      .table [("workspace", .bool true), ("default-features", .bool false)])])]
    ⟨"dependencies", "rstest-bdd-patterns", "../rstest-bdd-patterns"⟩
    ⟨.str "1.2.3", true⟩
    [("rstest-bdd-patterns",
      .table [("workspace", .bool true), ("default-features", .bool false)])]
    [("workspace", .bool true), ("default-features", .bool false)]
    rfl rfl (by decide)

/-! ## C4: already-published short-circuit in the live pass -/

/-- Trace produced by the first `n` successful commands of a publish
sequence: each contributes its invocation and its relayed output. -/
def prefixTrace (crate : String) (outs errs : Nat → String) :
    List (List String) → Nat → List Event
  | _, 0 => []
  | [], _ + 1 => []
  | c :: rest, n + 1 =>
    (.invoked crate c :: handle_command_output (outs 0) (errs 0)) ++
      prefixTrace crate (fun k => outs (k + 1)) (fun k => errs (k + 1)) rest n

/-- Evaluation of `_publish_one_command` on a completed (non-timeout)
process. -/
theorem publish_one_command_eval (oracle : CargoOracle) (crate root : String)
    (t : Int) (c : List String) (hv : validate_cargo_command c = true)
    (code : Int) (out errS : String)
    (hc : oracle crate c = .completed code out errS) :
    publish_one_command oracle crate root t c =
      (if code = 0 then
        (.ok false, .invoked crate c :: handle_command_output out errS)
      else if contains_already_published_marker ⟨c, code, out, errS⟩ then
        (.ok true, .invoked crate c ::
          (handle_command_output out errS ++ [.warnedAlreadyPublished crate]))
      else
        (.error (.systemExit (commandFailureMessage crate ⟨c, code, out, errS⟩)),
          [.invoked crate c])) := by
  unfold publish_one_command run_cargo_command
    execute_cargo_command_with_timeout handle_cargo_result publishOnFailure
  simp only [build_cargo_command_context, hv, if_true, hc]
  by_cases hcode : code = 0
  · simp [hcode]
  · by_cases hm : contains_already_published_marker ⟨c, code, out, errS⟩ = true
    · simp [hcode, hm]
    · simp only [Bool.not_eq_true] at hm
      simp [hcode, hm]

/-- The command loop of `publish_crate_commands`: after `i` successes, a
failure classified as already-published stops the sequence with the relayed
output and the loop returns normally; an unclassified failure aborts with the
fatal diagnostic.  Either way nothing past position `i` is invoked. -/
theorem publishLoop_spec (oracle : CargoOracle) (crate root : String)
    (t : Int) :
    ∀ (i : Nat) (commands : List (List String)) (outs errs : Nat → String),
      i < commands.length →
      (∀ c ∈ commands, validate_cargo_command c = true) →
      (∀ j, j < i →
        oracle crate (commands.getD j []) = .completed 0 (outs j) (errs j)) →
      ∀ (code : Int) (out errS : String), code ≠ 0 →
        oracle crate (commands.getD i []) = .completed code out errS →
        ((contains_already_published_marker
            ⟨commands.getD i [], code, out, errS⟩ = true →
          publishCrateCommandsLoop oracle crate root t commands =
            (.ok (), prefixTrace crate outs errs commands i ++
              (.invoked crate (commands.getD i []) ::
                (handle_command_output out errS ++
                  [.warnedAlreadyPublished crate])))) ∧
         (contains_already_published_marker
            ⟨commands.getD i [], code, out, errS⟩ = false →
          publishCrateCommandsLoop oracle crate root t commands =
            (.error (.systemExit (commandFailureMessage crate
                ⟨commands.getD i [], code, out, errS⟩)),
              prefixTrace crate outs errs commands i ++
                [.invoked crate (commands.getD i [])]))) := by
  intro i
  induction i with
  | zero =>
    intro commands outs errs hi hvalid hprev code out errS hcode hfail
    cases commands with
    | nil => simp at hi
    | cons c rest =>
      simp only [List.getD_cons_zero] at hfail ⊢
      have hv := hvalid c (List.mem_cons_self _ _)
      have hone := publish_one_command_eval oracle crate root t c hv code out
        errS hfail
      constructor
      · intro hm
        simp [publishCrateCommandsLoop, hone, hcode, hm, prefixTrace]
      · intro hm
        simp [publishCrateCommandsLoop, hone, hcode, hm, prefixTrace]
  | succ i ih =>
    intro commands outs errs hi hvalid hprev code out errS hcode hfail
    cases commands with
    | nil => simp at hi
    | cons c rest =>
      simp only [List.getD_cons_succ] at hfail ⊢
      have hv := hvalid c (List.mem_cons_self _ _)
      have hc0 : oracle crate c = .completed 0 (outs 0) (errs 0) := by
        have := hprev 0 (Nat.succ_pos i)
        simpa using this
      have hone := publish_one_command_eval oracle crate root t c hv 0 (outs 0)
        (errs 0) hc0
      have hrest := ih rest (fun k => outs (k + 1)) (fun k => errs (k + 1))
        (by simpa using Nat.lt_of_succ_lt_succ hi)
        (fun d hd => hvalid d (List.mem_cons_of_mem c hd))
        (fun j hj => by
          have := hprev (j + 1) (Nat.succ_lt_succ hj)
          simpa using this)
        code out errS hcode hfail
      constructor
      · intro hm
        have h1 := hrest.1 hm
        simp [publishCrateCommandsLoop, hone, h1, prefixTrace,
          List.append_assoc]
      · intro hm
        have h2 := hrest.2 hm
        simp [publishCrateCommandsLoop, hone, h2, prefixTrace,
          List.append_assoc]

/-- Any value stored in an association list is one of its mapped values. -/
theorem lookupLive_mem_snd :
    ∀ (entries : List (String × List (List String))) (key : String)
      (v : List (List String)),
      lookupLiveCommands entries key = some v → v ∈ entries.map Prod.snd := by
  intro entries
  induction entries with
  | nil => intro key v h; exact absurd h (by simp [lookupLiveCommands])
  | cons e rest ih =>
    intro key v h
    obtain ⟨k', v'⟩ := e
    unfold lookupLiveCommands at h
    by_cases hk : k' = key
    · rw [if_pos hk] at h
      injection h with h
      simp [h]
    · rw [if_neg hk] at h
      simp only [List.map_cons, List.mem_cons]
      exact Or.inr (ih key v h)

/-- Every configured live publish command invokes cargo. -/
theorem liveCommands_valid (crate : String) (commands : List (List String))
    (h : lookupLiveCommands LIVE_PUBLISH_COMMANDS crate = some commands) :
    ∀ c ∈ commands, validate_cargo_command c = true := by
  have hmem := lookupLive_mem_snd LIVE_PUBLISH_COMMANDS crate commands h
  simp only [LIVE_PUBLISH_COMMANDS, PUBLISHABLE_CRATES, LOCKED_LIVE_CRATES,
    List.map_cons, List.map_nil, List.mem_cons, List.not_mem_nil,
    or_false] at hmem
  rcases hmem with h' | h' | h' | h' <;> subst h' <;> decide

/-- C4: in the live pass, once a command of a crate's configured sequence
fails with output classified as already-published, the remaining commands of
the sequence are never invoked, the captured output is relayed exactly as a
successful command's would be, and the sequence returns normally so that
processing moves to the next crate; a failing command not so classified aborts
the run with the fatal command-failure `SystemExit`. -/
theorem already_published_short_circuit (oracle : CargoOracle)
    (crate workspaceRoot : String) (timeoutSecs : Int)
    (commands : List (List String)) (i : Nat)
    (hcmds : lookupLiveCommands LIVE_PUBLISH_COMMANDS crate = some commands)
    (hi : i < commands.length) (outs errs : Nat → String)
    (hprev : ∀ j, j < i →
      oracle crate (commands.getD j []) = .completed 0 (outs j) (errs j))
    (code : Int) (out errS : String) (hcode : code ≠ 0)
    (hfail : oracle crate (commands.getD i []) = .completed code out errS) :
    (contains_already_published_marker
        ⟨commands.getD i [], code, out, errS⟩ = true →
      publish_crate_commands oracle crate workspaceRoot timeoutSecs =
        (.ok (), prefixTrace crate outs errs commands i ++
          (.invoked crate (commands.getD i []) ::
            (handle_command_output out errS ++
              [.warnedAlreadyPublished crate])))) ∧
    (contains_already_published_marker
        ⟨commands.getD i [], code, out, errS⟩ = false →
      publish_crate_commands oracle crate workspaceRoot timeoutSecs =
        (.error (.systemExit (commandFailureMessage crate
            ⟨commands.getD i [], code, out, errS⟩)),
          prefixTrace crate outs errs commands i ++
            [.invoked crate (commands.getD i [])])) := by
  have hvalid := liveCommands_valid crate commands hcmds
  have hloop := publishLoop_spec oracle crate workspaceRoot timeoutSecs i
    commands outs errs hi hvalid hprev code out errS hcode hfail
  unfold publish_crate_commands
  rw [hcmds]
  exact hloop

/-- Oracle whose every command fails reporting the artifact already
uploaded. -/
def oracleAlreadyPublished : CargoOracle :=
  fun _ _ => .completed 101 "" "error: already uploaded"

/-- Oracle whose every command fails with an unrecognized registry
rejection. -/
def oracleRefused : CargoOracle :=
  fun _ _ => .completed 101 "" "registry said no"

/-- C4 witness: `rstest-bdd`'s two-command sequence under both failure
classes. -/
theorem already_published_short_circuit_witness :
    publish_crate_commands oracleAlreadyPublished "rstest-bdd" "/ws" 5 =
      (.ok (), prefixTrace "rstest-bdd" (fun _ => "") (fun _ => "")
          DEFAULT_LIVE_PUBLISH_COMMANDS 0 ++
        (.invoked "rstest-bdd" (DEFAULT_LIVE_PUBLISH_COMMANDS.getD 0 []) ::
          (handle_command_output "" "error: already uploaded" ++
            [.warnedAlreadyPublished "rstest-bdd"]))) ∧
    publish_crate_commands oracleRefused "rstest-bdd" "/ws" 5 =
      (.error (.systemExit (commandFailureMessage "rstest-bdd"
          ⟨DEFAULT_LIVE_PUBLISH_COMMANDS.getD 0 [], 101, "",
            "registry said no"⟩)),
        prefixTrace "rstest-bdd" (fun _ => "") (fun _ => "")
            DEFAULT_LIVE_PUBLISH_COMMANDS 0 ++
          [.invoked "rstest-bdd" (DEFAULT_LIVE_PUBLISH_COMMANDS.getD 0 [])]) :=
  ⟨(already_published_short_circuit oracleAlreadyPublished "rstest-bdd" "/ws"
      5 DEFAULT_LIVE_PUBLISH_COMMANDS 0 rfl (by decide) (fun _ => "")
      (fun _ => "") (fun j hj => absurd hj (Nat.not_lt_zero j)) 101 ""
      "error: already uploaded" (by decide) rfl).1 (by decide),
   (already_published_short_circuit oracleRefused "rstest-bdd" "/ws" 5
      DEFAULT_LIVE_PUBLISH_COMMANDS 0 rfl (by decide) (fun _ => "")
      (fun _ => "") (fun j hj => absurd hj (Nat.not_lt_zero j)) 101 ""
      "registry said no" (by decide) rfl).2 (by decide)⟩

/-! ## C3: validate-pass command order -/

/-- Projection of invocation events from a trace. -/
def invokedOf : Event → Option (String × List String)
  | .invoked crate command => some (crate, command)
  | _ => none

/-- Command chosen by the validate pass's crate action: the dispatch tests the
crate's name against `rstest-bdd-patterns`, not its catalogue position. -/
def checkCmdFor (crate : String) : List String :=
  if crate = "rstest-bdd-patterns" then
    ["cargo", "package", "--allow-dirty", "--no-verify"]
  else
    ["cargo", "check", "--all-features"]

theorem invokedOf_outputs (o e : String) :
    (handle_command_output o e).filterMap invokedOf = [] := by
  unfold handle_command_output
  by_cases ho : o.isEmpty <;> by_cases he : e.isEmpty <;>
    simp [ho, he, invokedOf]

/-- Evaluation of `run_cargo_command` on a succeeding process. -/
theorem run_cargo_success_eval (oracle : CargoOracle)
    (context : CargoCommandContext) (command : List String)
    (onFailure : Option FailureHandler)
    (hv : validate_cargo_command command = true) (o e : String)
    (hc : oracle context.crate command = .completed 0 o e) :
    run_cargo_command oracle context command onFailure =
      (.ok false, .invoked context.crate command ::
        handle_command_output o e) := by
  unfold run_cargo_command execute_cargo_command_with_timeout
    handle_cargo_result
  simp [hv, hc]

/-- Trace of the validate pass's per-crate loop under an all-success oracle:
every catalogue entry contributes exactly its name-dispatched command, in
catalogue order. -/
theorem checkLoop_trace (oracle : CargoOracle) (root : String) (t : Int)
    (version : Toml)
    (hok : ∀ crate cmd, ∃ o e, oracle crate cmd = .completed 0 o e) :
    ∀ (catalogue : List String) (ws : WsState),
      (processCratesLoop root t
        { stripPatch := true, includeLocalPath := true, applyPerCrate := false }
        version (checkCrateAction oracle root) catalogue ws).1 = .ok () ∧
      ((processCratesLoop root t
        { stripPatch := true, includeLocalPath := true, applyPerCrate := false }
        version (checkCrateAction oracle root) catalogue
          ws).2.2).filterMap invokedOf =
        catalogue.map fun crate => (crate, checkCmdFor crate) := by
  intro catalogue
  induction catalogue with
  | nil => intro ws; exact ⟨rfl, rfl⟩
  | cons crate rest ih =>
    intro ws
    obtain ⟨o, e, hc⟩ := hok crate (checkCmdFor crate)
    have haction : checkCrateAction oracle root crate t =
        (.ok (), .invoked crate (checkCmdFor crate) ::
          handle_command_output o e) := by
      unfold checkCrateAction package_crate check_crate
      by_cases hcrate : crate = "rstest-bdd-patterns"
      · rw [if_pos hcrate]
        rw [run_cargo_success_eval oracle _ _ none (by decide) o e
          (by simpa [checkCmdFor, hcrate, build_cargo_command_context]
            using hc)]
        simp [checkCmdFor, hcrate, build_cargo_command_context]
      · rw [if_neg hcrate]
        rw [run_cargo_success_eval oracle _ _ none (by decide) o e
          (by simpa [checkCmdFor, hcrate, build_cargo_command_context]
            using hc)]
        simp [checkCmdFor, hcrate, build_cargo_command_context]
    have hrest := ih ws
    constructor
    · simp [processCratesLoop, haction, hrest.1]
    · simp [processCratesLoop, haction, List.filterMap_append,
        invokedOf_outputs, invokedOf, hrest.2]

/-- C3 counterexample: for the non-empty catalogue `["rstest-bdd-macros"]` the
validate pass completes while invoking no "package" command at all — the
first catalogue entry receives "check", because the dispatch tests the crate
name, not the position. -/
theorem validate_pass_first_entry_counterexample :
    (process_crates_for_check allOkOracle ["rstest-bdd-macros"] "/ws" sampleWs
        30).1 = .ok () ∧
    (process_crates_for_check allOkOracle ["rstest-bdd-macros"] "/ws" sampleWs
        30).2.2 =
      [.invoked "rstest-bdd-macros" ["cargo", "check", "--all-features"]] :=
  ⟨rfl, rfl⟩

/-- C3 amended: for the configured catalogue (whose first entry is
`rstest-bdd-patterns`, the name the dispatch tests), the validate pass invokes
exactly one "package" command — for the first entry — and one "check" command
for each remaining entry, in catalogue order. -/
theorem validate_pass_order (oracle : CargoOracle) (ws : WsState)
    (root : String) (t : Int) (version : Toml)
    (manifests' : List (String × TomlItems))
    (hv : workspace_version (root ++ "/Cargo.toml")
      (strip_patch_section ws.rootManifest) = .ok version)
    (hr : apply_workspace_replacements root ws.crateManifests version true
      none = .ok manifests')
    (hok : ∀ crate cmd, ∃ o e, oracle crate cmd = .completed 0 o e) :
    (process_crates_for_check oracle CRATE_ORDER root ws t).1 = .ok () ∧
    ((process_crates_for_check oracle CRATE_ORDER root ws
        t).2.2).filterMap invokedOf =
      [("rstest-bdd-patterns", ["cargo", "package", "--allow-dirty",
          "--no-verify"]),
       ("rstest-bdd-macros", ["cargo", "check", "--all-features"]),
       ("rstest-bdd", ["cargo", "check", "--all-features"]),
       ("cargo-bdd", ["cargo", "check", "--all-features"])] := by
  have hloop := checkLoop_trace oracle root t version hok CRATE_ORDER
    { rootManifest := strip_patch_section ws.rootManifest
      crateManifests := manifests' }
  have hmap : CRATE_ORDER.map (fun crate => (crate, checkCmdFor crate)) =
      [("rstest-bdd-patterns", ["cargo", "package", "--allow-dirty",
          "--no-verify"]),
       ("rstest-bdd-macros", ["cargo", "check", "--all-features"]),
       ("rstest-bdd", ["cargo", "check", "--all-features"]),
       ("cargo-bdd", ["cargo", "check", "--all-features"])] := by decide
  unfold process_crates_for_check process_crates
  rw [show CRATE_ORDER.isEmpty = false from rfl]
  simp only [Bool.false_eq_true, if_false, if_true, hv, hr]
  exact ⟨hloop.1, by rw [hloop.2, hmap]⟩

/-- C3 witness for the amended statement, on the sample workspace. -/
theorem validate_pass_order_witness :
    (process_crates_for_check allOkOracle CRATE_ORDER "/ws" sampleWs 30).1 =
      .ok () ∧
    ((process_crates_for_check allOkOracle CRATE_ORDER "/ws" sampleWs
        30).2.2).filterMap invokedOf =
      [("rstest-bdd-patterns", ["cargo", "package", "--allow-dirty",
          "--no-verify"]),
       ("rstest-bdd-macros", ["cargo", "check", "--all-features"]),
       ("rstest-bdd", ["cargo", "check", "--all-features"]),
       ("cargo-bdd", ["cargo", "check", "--all-features"])] :=
  validate_pass_order allOkOracle sampleWs "/ws" 30 (.str "0.1.0") _ rfl rfl
    fun _ _ => ⟨"", "", rfl⟩
